import Mathlib

/-!
Verification development for the LLM-analysis quiz solver.

The Python sources are shallow-embedded as executable Lean definitions:

* `JVal` models dynamically-typed Python/JSON values flowing through the
  system (ints, floats as rationals, booleans, strings, arrays, objects).
* `json_loads` models the standard JSON decoder used by `json.loads`.
* `extract_answer` embeds `LLMClient.extract_answer` (llm_client.py).
* `get_solution_strategy` embeds `LLMClient.get_solution_strategy`.
* `CodeExecutor` pieces embed code_executor.py (result capture, timeout,
  filename materialization, cleanup).
* CSV encode/decode model the external pandas `to_csv` / `read_csv`
  collaborators at the level of fields-as-strings.
* `handle_quiz` embeds the FastAPI inbound endpoint (main.py).
* `solve_quiz` / `chainLoop` embed the retry/chain orchestration of
  `AdvancedQuizSolver.solve_quiz` and `solve_quiz_chain`.
-/

namespace Quiz

/-- Dynamically-typed value: JSON values plus Python ints/floats/bools/strings
as produced by `json.loads`, `int(...)`, `float(...)` and string handling.
Floats are modelled as exact rationals of their decimal literals. -/
inductive JVal where
  | jnull
  | jbool (b : Bool)
  | jint (n : Int)
  | jfloat (q : Rat)
  | jstr (s : String)
  | jarr (xs : List JVal)
  | jobj (kvs : List (String × JVal))
  deriving Repr

/-- Python truthiness (`bool(v)`): None, False, 0, 0.0, "", [], {} are falsy. -/
def JVal.isTruthy : JVal → Bool
  | .jnull => false
  | .jbool b => b
  | .jint n => n != 0
  | .jfloat q => q != 0
  | .jstr s => s.length != 0
  | .jarr xs => xs.length != 0
  | .jobj kvs => kvs.length != 0

/-- JSON whitespace characters (also Python `str.strip` / `json.loads` skip set
for the space, tab, newline, carriage-return part). -/
def isJsonWs (c : Char) : Bool :=
  c == ' ' || c == '\t' || c == '\n' || c == '\r'

/-- Python `str.strip` whitespace (adds vertical tab and form feed). -/
def isPyWs (c : Char) : Bool :=
  isJsonWs c || c == '\x0b' || c == '\x0c'

/-- Python `content.strip()`. -/
def pyStrip (s : String) : String :=
  String.mk (((s.toList.dropWhile isPyWs).reverse.dropWhile isPyWs).reverse)

/-- Python `content.lower()` (ASCII case folding suffices for the source). -/
def pyLower (s : String) : String :=
  String.mk (s.toList.map Char.toLower)

/-- Python `content.upper()`. -/
def pyUpper (s : String) : String :=
  String.mk (s.toList.map Char.toUpper)

/-- `needle` occurs as a contiguous sublist of the second argument. -/
def listHasInfix (needle : List Char) : List Char → Bool
  | [] => needle.isEmpty
  | c :: cs => needle.isPrefixOf (c :: cs) || listHasInfix needle cs

/-- Python `needle in hay` substring test. -/
def pyContains (hay needle : String) : Bool :=
  listHasInfix needle.toList hay.toList

/-- Value of a decimal digit string (most significant first). -/
def digitsToNat (ds : List Char) : Nat :=
  ds.foldl (fun a c => a * 10 + (c.toNat - 48)) 0

/-- Hexadecimal digit value, for JSON `\uXXXX` escapes. -/
def hexDigitVal (c : Char) : Option Nat :=
  if c.isDigit then some (c.toNat - 48)
  else if 'a' ≤ c && c ≤ 'f' then some (c.toNat - 87)
  else if 'A' ≤ c && c ≤ 'F' then some (c.toNat - 55)
  else none

/-- Parse the body of a JSON string literal (after the opening quote),
returning the decoded string and the input following the closing quote. -/
def parseJsonStr : List Char → List Char → Option (String × List Char)
  | acc, '"' :: rest => some (String.mk acc.reverse, rest)
  | acc, '\\' :: e :: rest =>
    match e with
    | '"' => parseJsonStr ('"' :: acc) rest
    | '\\' => parseJsonStr ('\\' :: acc) rest
    | '/' => parseJsonStr ('/' :: acc) rest
    | 'b' => parseJsonStr ('\x08' :: acc) rest
    | 'f' => parseJsonStr ('\x0c' :: acc) rest
    | 'n' => parseJsonStr ('\n' :: acc) rest
    | 'r' => parseJsonStr ('\r' :: acc) rest
    | 't' => parseJsonStr ('\t' :: acc) rest
    | 'u' =>
      match rest with
      | a :: b :: c :: d :: rest2 =>
        match hexDigitVal a, hexDigitVal b, hexDigitVal c, hexDigitVal d with
        | some x, some y, some z, some w =>
          let n := ((x * 16 + y) * 16 + z) * 16 + w
          if n < 55296 then parseJsonStr (Char.ofNat n :: acc) rest2
          else none
        | _, _, _, _ => none
      | _ => none
    | _ => none
  | acc, c :: rest =>
    if c.toNat < 32 then none else parseJsonStr (c :: acc) rest
  | _, [] => none

/-- Parse a JSON number token at the head of the input: `jint` when it has no
fraction or exponent part, otherwise `jfloat` (as `json.loads` yields
`int` vs `float`). -/
def parseJsonNum (cs : List Char) : Option (JVal × List Char) :=
  let (neg, cs1) := match cs with
    | '-' :: t => (true, t)
    | t => (false, t)
  let ip := cs1.takeWhile Char.isDigit
  let cs2 := cs1.dropWhile Char.isDigit
  if ip.isEmpty then none
  else if ip.length > 1 && ip.headD '0' == '0' then none
  else
    let (fracDigits, cs3) := match cs2 with
      | '.' :: t =>
        (t.takeWhile Char.isDigit, t.dropWhile Char.isDigit)
      | t => ([], t)
    if cs2 ≠ cs3 && fracDigits.isEmpty then none
    else
      let (expPart, cs4) : Option Int × List Char := match cs3 with
        | 'e' :: t | 'E' :: t =>
          let (esign, t2) : Int × List Char := match t with
            | '+' :: u => (1, u)
            | '-' :: u => (-1, u)
            | u => (1, u)
          let eds := t2.takeWhile Char.isDigit
          (some (esign * (digitsToNat eds : Int)), t2.dropWhile Char.isDigit)
        | t => (none, t)
      let scale : Nat := 10 ^ fracDigits.length
      let mant : Int := digitsToNat ip * scale + digitsToNat fracDigits
      let smant : Int := if neg then -mant else mant
      match expPart with
      | none =>
        if fracDigits.isEmpty then
          some (.jint smant, cs4)
        else
          some (.jfloat (mkRat smant scale), cs4)
      | some e =>
        let scaled : Rat :=
          if e ≥ 0 then mkRat (smant * 10 ^ e.toNat) scale
          else mkRat smant (scale * 10 ^ (-e).toNat)
        some (.jfloat scaled, cs4)

mutual

/-- Fueled JSON value parser (recursive-descent model of `json.loads`). -/
def parseJsonVal : Nat → List Char → Option (JVal × List Char)
  | 0, _ => none
  | fuel + 1, cs =>
    let cs := cs.dropWhile isJsonWs
    match cs with
    | 'n' :: 'u' :: 'l' :: 'l' :: rest => some (.jnull, rest)
    | 't' :: 'r' :: 'u' :: 'e' :: rest => some (.jbool true, rest)
    | 'f' :: 'a' :: 'l' :: 's' :: 'e' :: rest => some (.jbool false, rest)
    | '"' :: rest =>
      match parseJsonStr [] rest with
      | some (s, rest2) => some (.jstr s, rest2)
      | none => none
    | '[' :: rest =>
      let rest := rest.dropWhile isJsonWs
      match rest with
      | ']' :: rest2 => some (.jarr [], rest2)
      | _ =>
        match parseJsonItems fuel rest with
        | some (xs, rest2) => some (.jarr xs, rest2)
        | none => none
    | '{' :: rest =>
      let rest := rest.dropWhile isJsonWs
      match rest with
      | '}' :: rest2 => some (.jobj [], rest2)
      | _ =>
        match parseJsonMembers fuel rest with
        | some (kvs, rest2) => some (.jobj kvs, rest2)
        | none => none
    | _ => parseJsonNum cs

/-- Comma-separated array items, up to and including the closing bracket. -/
def parseJsonItems : Nat → List Char → Option (List JVal × List Char)
  | 0, _ => none
  | fuel + 1, cs =>
    match parseJsonVal fuel cs with
    | some (v, rest) =>
      let rest := rest.dropWhile isJsonWs
      match rest with
      | ',' :: rest2 =>
        match parseJsonItems fuel rest2 with
        | some (xs, rest3) => some (v :: xs, rest3)
        | none => none
      | ']' :: rest2 => some ([v], rest2)
      | _ => none
    | none => none

/-- Comma-separated object members, up to and including the closing brace. -/
def parseJsonMembers : Nat → List Char → Option (List (String × JVal) × List Char)
  | 0, _ => none
  | fuel + 1, cs =>
    let cs := cs.dropWhile isJsonWs
    match cs with
    | '"' :: rest =>
      match parseJsonStr [] rest with
      | some (k, rest2) =>
        let rest2 := rest2.dropWhile isJsonWs
        match rest2 with
        | ':' :: rest3 =>
          match parseJsonVal fuel rest3 with
          | some (v, rest4) =>
            let rest4 := rest4.dropWhile isJsonWs
            match rest4 with
            | ',' :: rest5 =>
              match parseJsonMembers fuel rest5 with
              | some (kvs, rest6) => some ((k, v) :: kvs, rest6)
              | none => none
            | '}' :: rest5 => some ([(k, v)], rest5)
            | _ => none
          | none => none
        | _ => none
      | none => none
    | _ => none

end

/-- Model of Python `json.loads`: parse one JSON value, reject trailing
non-whitespace ("Extra data"), `none` plays the role of `JSONDecodeError`. -/
def json_loads (s : String) : Option JVal :=
  match parseJsonVal (s.length + 1) s.toList with
  | some (v, rest) => if (rest.dropWhile isJsonWs).isEmpty then some v else none
  | none => none

/-- Prefix of `cs` up to and including the last occurrence of `ch`
(caller guarantees one exists). -/
def takeUpToLast (ch : Char) (cs : List Char) : List Char :=
  ((cs.reverse.dropWhile (fun c => c != ch)).reverse)

/-- The span matched by `re.search(r'\{.*\}|\[.*\]', content, re.DOTALL)`:
the leftmost position holding `{` with a later `}` (this alternative is
preferred) or `[` with a later `]`, extended greedily to the last such
closing character in the input. -/
def jsonSpan : List Char → Option (List Char)
  | [] => none
  | c :: cs =>
    if c == '{' && cs.contains '}' then some (c :: takeUpToLast '}' cs)
    else if c == '[' && cs.contains ']' then some (c :: takeUpToLast ']' cs)
    else jsonSpan cs

/-- The token matched at a position where `-?\d+\.?\d*` succeeds (head is a
digit, or a minus directly followed by a digit): maximal digit run, then an
optional dot with a further maximal digit run. -/
def numTokenAt (cs : List Char) : List Char :=
  let ds := cs.takeWhile Char.isDigit
  match cs.dropWhile Char.isDigit with
  | '.' :: rest => ds ++ '.' :: rest.takeWhile Char.isDigit
  | _ => ds

/-- Leftmost match of `re.search(r'-?\d+\.?\d*', content)`. -/
def firstNumToken : List Char → Option (List Char)
  | [] => none
  | c :: cs =>
    if c.isDigit then some (numTokenAt (c :: cs))
    else if c == '-' then
      match cs with
      | d :: _ => if d.isDigit then some ('-' :: numTokenAt cs) else firstNumToken cs
      | [] => none
    else firstNumToken cs

/-- Python `float(tok)`/`int(tok)` applied to a matched numeric token:
float when the token contains a decimal point, else int
(llm_client.py:327-332). -/
def pyNumOfToken (tok : List Char) : JVal :=
  let (neg, body) := match tok with
    | '-' :: t => (true, t)
    | t => (false, t)
  if body.contains '.' then
    let ip := body.takeWhile (fun c => c != '.')
    let fp := (body.dropWhile (fun c => c != '.')).drop 1
    let scale : Nat := 10 ^ fp.length
    let mant : Int := digitsToNat ip * scale + digitsToNat fp
    .jfloat (mkRat (if neg then -mant else mant) scale)
  else
    let n : Int := digitsToNat body
    .jint (if neg then -n else n)

/-- Steps (2)-(4) of `LLMClient.extract_answer`: first numeric token, else
boolean words on the lowercased/stripped text, else the stripped text. -/
def extractAfterJson (content : String) : JVal :=
  match firstNumToken content.toList with
  | some tok => pyNumOfToken tok
  | none =>
    let cl := pyStrip (pyLower content)
    if cl == "true" || cl == "yes" then .jbool true
    else if cl == "false" || cl == "no" then .jbool false
    else .jstr (pyStrip content)

/-- `LLMClient.extract_answer` (llm_client.py:309-346) applied to the
message content: greedy regex JSON span parsed with `json.loads` (only a
decode error falls through), else numeric token, else boolean words, else
the stripped text. -/
def extract_answer (content : String) : JVal :=
  match jsonSpan content.toList with
  | some span =>
    match json_loads (String.mk span) with
    | some v => v
    | none => extractAfterJson content
  | none => extractAfterJson content

/-- Modelled from the spec: "first balanced `{...}` or `[...]` substring
parsed as JSON — on success return the parsed value". Depth-matched span at
the given opening character; `acc` holds the reversed span so far. -/
def balancedSpan (openc closec : Char) : List Char → Nat → List Char → Option (List Char)
  | [], _, _ => none
  | c :: cs, depth, acc =>
    if c == closec then
      if depth == 1 then some ((c :: acc).reverse)
      else balancedSpan openc closec cs (depth - 1) (c :: acc)
    else if c == openc then balancedSpan openc closec cs (depth + 1) (c :: acc)
    else balancedSpan openc closec cs depth (c :: acc)

/-- Modelled from the spec: scan for the first balanced `{...}` or `[...]`
substring that parses as JSON and return the parsed value. This is the
comparison point for the refinement stated in §4.4 of the spec; the source
instead uses the greedy regex span of `jsonSpan`. -/
def specFirstBalancedJson : List Char → Option JVal
  | [] => none
  | c :: cs =>
    if c == '{' || c == '[' then
      let closec := if c == '{' then '}' else ']'
      match balancedSpan c closec cs 1 [c] with
      | some span =>
        match json_loads (String.mk span) with
        | some v => some v
        | none => specFirstBalancedJson cs
      | none => specFirstBalancedJson cs
    else specFirstBalancedJson cs

/-- Outcome of an `LLMClient.call_api` round trip as seen by callers: the
backend either fails (`None` response, HTTP error, or a raised exception —
all collapse to the same degraded path in the source) or yields the
message content string. -/
inductive ApiOutcome where
  | failure
  | success (content : String)
  deriving Repr

/-- Keyword list of `LLMClient._needs_code_execution`
(llm_client.py:145-152). -/
def executionKeywords : List String :=
  ["visualization", "visualize", "plot", "chart", "graph",
   "machine learning", "regression", "classification", "clustering",
   "model", "predict", "train",
   "generate", "create a file", "create csv",
   "statistical analysis", "hypothesis test",
   "correlation", "distribution"]

/-- `LLMClient._needs_code_execution` (llm_client.py:133-160). -/
def needs_code_execution (response quizContent : String) : Bool :=
  if pyContains (pyUpper response) "STRATEGY: CODE_EXECUTION" then true
  else if pyContains response "```python" || pyContains response "```Python" then true
  else if executionKeywords.any (fun k => pyContains (pyLower quizContent) k) then
    pyContains response "```"
  else false

/-- Suffix following the first occurrence of a triple-backtick fence. -/
def afterFirstFence : List Char → Option (List Char)
  | '`' :: '`' :: '`' :: rest => some rest
  | _ :: cs => afterFirstFence cs
  | [] => none

/-- Consume the optional `python`/`Python` language tag of the fence. -/
def dropLangTag (cs : List Char) : List Char :=
  if "python".toList.isPrefixOf cs then cs.drop 6
  else if "Python".toList.isPrefixOf cs then cs.drop 6
  else cs

/-- Characters up to (excluding) the next triple-backtick fence. -/
def upToClosingFence (acc : List Char) : List Char → Option (List Char)
  | '`' :: '`' :: '`' :: _ => some acc.reverse
  | c :: cs => upToClosingFence (c :: acc) cs
  | [] => none

/-- `LLMClient._extract_code` (llm_client.py:162-179): the first group
matched by `r'```(?:python|Python)?\s*(.*?)```'` under DOTALL, stripped;
`none` when no fenced block closes. -/
def extract_code (response : String) : Option String :=
  match afterFirstFence response.toList with
  | none => none
  | some afterOpen =>
    match upToClosingFence [] ((dropLangTag afterOpen).dropWhile isPyWs) with
    | some content => some (pyStrip (String.mk content))
    | none => none

/-- `LLMClient.get_solution_strategy` (llm_client.py:42-80): a failed or
erroring backend call degrades to `("direct", none)`; a code-execution vote
returns the extracted code only when it is non-empty (`if code:`). -/
def strategyOfContent (quizContent content : String) : String × Option String :=
  if needs_code_execution content quizContent then
    match extract_code content with
    | some code => if code != "" then ("code_execution", some code) else ("direct", none)
    | none => ("direct", none)
  else ("direct", none)

/-- Dispatch of `get_solution_strategy` on the backend outcome. -/
def get_solution_strategy (quizContent : String) (api : ApiOutcome) :
    String × Option String :=
  match api with
  | .failure => ("direct", none)
  | .success content => strategyOfContent quizContent content

/-- One entry of the scratch directory: file name and creation stamp
(`os.path.getctime` order). -/
structure DirFile where
  name : String
  ctime : Nat
  deriving Repr, DecidableEq

/-- Extension allowlist of the wrapper's artifact scan
(code_executor.py:86). -/
def artifactPatterns : List String :=
  ["png", "jpg", "jpeg", "svg", "csv", "json", "xlsx"]

/-- `l1` is a suffix of `l2`. -/
def listIsSuffix (l1 l2 : List Char) : Bool :=
  l1.reverse.isPrefixOf l2.reverse

/-- `Path('.').glob('*.<pat>')` membership: the name ends in `.<pat>` and is
not a hidden file (glob's `*` does not match a leading dot). -/
def globMatches (pat : String) (name : String) : Bool :=
  (! (List.isPrefixOf ['.'] name.toList)) && listIsSuffix ('.' :: pat.toList) name.toList

/-- The `output_files` list collected by the wrapper: one glob pass per
extension pattern, in pattern order (code_executor.py:85-87). -/
def outputFilesScan (files : List DirFile) : List DirFile :=
  (artifactPatterns.map (fun p => files.filter (fun f => globMatches p f.name))).flatten

/-- Python `max(..., key=os.path.getctime)`: first maximum wins. -/
def maxByCtime : DirFile → List DirFile → DirFile
  | best, [] => best
  | best, f :: fs => maxByCtime (if best.ctime < f.ctime then f else best) fs

/-- Result capture appended by `CodeExecutor._wrap_code`
(code_executor.py:77-92): `__result__` is `answer` when bound, else
`result` when bound, else `None`; the artifact scan runs whenever files
matching the allowlist exist and `__result__` is falsy, and selects the
most recently created one — there is no filter for newly created files.
Returns `(__result__, __output_file__)`. -/
def wrap_capture (answerVar resultVar : Option JVal) (files : List DirFile) :
    Option JVal × Option String :=
  let r : Option JVal :=
    match answerVar with
    | some a => some a
    | none => resultVar
  let rFalsy : Bool :=
    match r with
    | none => true
    | some v => !v.isTruthy
  match outputFilesScan files with
  | [] => (r, none)
  | f :: fs => if rFalsy then (r, some (maxByCtime f fs).name) else (r, none)

/-- Default file names by kind in `CodeExecutor._extract_filename`
(code_executor.py:190-201). -/
def defaultExtName (ftype : String) : String :=
  let ext :=
    if ftype == "csv" then ".csv"
    else if ftype == "json" then ".json"
    else if ftype == "excel" then ".xlsx"
    else if ftype == "pdf" then ".pdf"
    else if ftype == "text" then ".txt"
    else if ftype == "image" then ".png"
    else ".dat"
  "data" ++ ext

/-- Python `str.split(sep)` for a one-character separator. -/
def splitOnChar (sep : Char) : List Char → List (List Char)
  | [] => [[]]
  | c :: cs =>
    let r := splitOnChar sep cs
    if c == sep then [] :: r
    else
      match r with
      | h :: t => (c :: h) :: t
      | [] => [[c]]

/-- `CodeExecutor._extract_filename` (code_executor.py:177-201). -/
def extract_filename (url : String) (ftype : String) : String :=
  if "image_".toList.isPrefixOf url.toList then
    "image_" ++ String.mk (((splitOnChar '_' url.toList).drop 1).headD []) ++ ".png"
  else if url.toList.contains '/' then
    let potential := String.mk ((splitOnChar '/' url.toList).getLastD [])
    if potential.toList.contains '.' then potential else defaultExtName ftype
  else defaultExtName ftype

end Quiz

namespace Quiz

/-- Index of the first occurrence of `needle` in the list, as
`str.index` computes it. -/
def indexOfSub (needle : List Char) : List Char → Option Nat
  | [] => if needle.isEmpty then some 0 else none
  | c :: cs =>
    if needle.isPrefixOf (c :: cs) then some 0
    else (indexOfSub needle cs).map (· + 1)

def markerStart : String := "__QUIZ_RESULT_START__"

def markerEnd : String := "__QUIZ_RESULT_END__"

/-- `CodeExecutor._parse_output` (code_executor.py:244-268). `processFile`
stands for `_process_output_file`, the file-system collaborator re-reading
a named artifact; any exception inside the `try` returns `None`, which
covers a non-object marker payload. -/
def parse_output (processFile : String → Option JVal) (stdout : String) :
    Option JVal :=
  let s := stdout.toList
  match indexOfSub markerStart.toList s, indexOfSub markerEnd.toList s with
  | some i, some j =>
    let startIdx := i + markerStart.length
    let seg := (s.drop startIdx).take (j - startIdx)
    match json_loads (pyStrip (String.mk seg)) with
    | some (.jobj kvs) =>
      match kvs.lookup "result" with
      | some v => some v
      | none =>
        match kvs.lookup "output_file" with
        | some (.jstr p) => processFile p
        | some _ => none
        | none => none
    | _ => none
  | _, _ => none

/-- Observable behaviour of the child process for one execution: the
wall-clock time it would need to finish, and its exit data if allowed to. -/
structure ProcRun where
  runtime : Nat
  returncode : Int
  stdout : String
  stderr : String

/-- The triple returned by `CodeExecutor._run_script`, with an extra flag
recording that `process.kill()` was invoked. -/
structure ScriptOutcome where
  success : Bool
  result : Option JVal
  error : String
  killed : Bool
  deriving Repr

/-- `CodeExecutor.__init__` sets `self.timeout = 60` (code_executor.py:20). -/
def executorTimeout : Nat := 60

/-- `CodeExecutor._run_script` (code_executor.py:203-242):
`asyncio.wait_for` raises once the child outlives the timeout, the child is
killed and the timeout triple is returned; otherwise non-zero exit reports
the stderr, and a successful exit parses the marker block. -/
def run_script (timeout : Nat) (p : ProcRun) (processFile : String → Option JVal) :
    ScriptOutcome :=
  if timeout < p.runtime then
    { success := false, result := none, error := "Code execution timeout", killed := true }
  else if p.returncode != 0 then
    { success := false, result := none, error := "Execution failed: " ++ p.stderr,
      killed := false }
  else
    match parse_output processFile p.stdout with
    | some r => { success := true, result := some r, error := "", killed := false }
    | none =>
      { success := false, result := none,
        error := "Could not extract result from execution", killed := false }

/-- `CodeExecutor.cleanup` (code_executor.py:329-336): `shutil.rmtree`
wrapped in a try/except that only logs; any rmtree failure is swallowed and
the function returns normally (`.ok`), `true` when the tree was removed. -/
def cleanup (rmtreeOutcome : Except String Unit) : Except String Bool :=
  match rmtreeOutcome with
  | .ok _ => .ok true
  | .error _ => .ok false

/-- Outcome of the `POST /` endpoint (main.py:30-79): an `HTTPException`
with its status code, the 500 fallback of the generic handler, or the
success response; `accepted` carries the body's `status` and `url` fields
and the url handed to the background `solve_quiz_chain` task. -/
inductive HandleOutcome where
  | httpError (code : Nat) (detail : String)
  | accepted (bodyStatus : String) (bodyUrl : String) (backgroundUrl : String)
  deriving Repr, DecidableEq

/-- Pydantic validation of one required `str` field of `QuizRequest`. -/
def getStrField (kvs : List (String × JVal)) (k : String) : Option String :=
  match kvs.lookup k with
  | some (.jstr s) => some s
  | _ => none

/-- The validated-body half of `handle_quiz` (main.py:41-70): field
validation (400), then secret (403), then email (403), then the accepted
response (status code 200) whose creation also starts the background
chain task. -/
def handleFields (cfgSecret cfgEmail : String) (kvs : List (String × JVal)) :
    HandleOutcome :=
  match getStrField kvs "email", getStrField kvs "secret", getStrField kvs "url" with
  | some email, some secret, some url =>
    if secret != cfgSecret then .httpError 403 "Invalid secret"
    else if email != cfgEmail then .httpError 403 "Email does not match"
    else .accepted "accepted" url url
  | _, _, _ => .httpError 400 "Invalid request format"

/-- `handle_quiz` (main.py:30-79). `rawBody` is `none` when
`request.json()` raises on malformed JSON; a parsed non-object body makes
`QuizRequest(**body)` raise `TypeError`, which is not a `ValidationError`
and falls to the generic 500 handler. Checks run in source order: JSON
parse, field validation, secret, email. -/
def handle_quiz (cfgSecret cfgEmail : String) (rawBody : Option JVal) : HandleOutcome :=
  match rawBody with
  | none => .httpError 400 "Invalid JSON payload"
  | some (.jobj kvs) => handleFields cfgSecret cfgEmail kvs
  | some _ => .httpError 500 "argument of type QuizRequest is not a mapping"

/-- Parsed submission response as built by `AdvancedQuizSolver.submit_answer`
(advanced_quiz_solver.py:756-786). `url = none` also stands for a falsy
(empty) url, which every consumer tests with Python truthiness. -/
structure SubmitResult where
  correct : Bool
  reason : String
  url : Option String
  deriving Repr, DecidableEq

/-- Outcome of `CodeExecutor.execute_code` as consumed by the solver:
`_run_script` returns success only together with a non-`None` result. -/
inductive ExecOutcome where
  | success (v : JVal)
  | failure (err : String)
  deriving Repr

/-- `generate_code_solution` (llm_client.py:181-207): a failed backend call
yields `None`, otherwise the first fenced block of the content. -/
def genCodeOf (api : ApiOutcome) : Option String :=
  match api with
  | .failure => none
  | .success content => extract_code content

/-- Environment of one `solve_quiz` call: the outcomes of all external
collaborators it consults (page fetch, the two model calls, the code
executor, the direct answer, and the scoring endpoint). -/
structure AttemptEnv where
  fetchOk : Bool
  quizContent : String
  strategyApi : ApiOutcome
  genApi : ApiOutcome
  execResult : ExecOutcome
  directAnswer : Option JVal
  submitResult : SubmitResult

/-- Per-URL attempt record kept in `AdvancedQuizSolver.attempt_history`
(advanced_quiz_solver.py:26, 36-45). -/
structure AttemptRecord where
  attempts : Nat
  methods_tried : List String
  deriving Repr, DecidableEq

/-- The `attempt_history` dict: insertion-ordered association list. -/
abbrev History := List (String × AttemptRecord)

/-- Dict lookup on the attempt history. -/
def histFind (u : String) : History → Option AttemptRecord
  | [] => none
  | kv :: t => if kv.1 = u then some kv.2 else histFind u t

/-- In-place value update of one key (dict mutation). -/
def histUpdate (url : String) (g : AttemptRecord → AttemptRecord) (h : History) :
    History :=
  h.map (fun kv => if kv.1 = url then (kv.1, g kv.2) else kv)

/-- Lines 37-44 of advanced_quiz_solver.py: create the record on first
sight of the URL, then increment its attempt counter. -/
def bumpHistory (url : String) (h : History) : History :=
  match histFind url h with
  | none => h ++ [(url, ⟨1, []⟩)]
  | some _ => histUpdate url (fun r => ⟨r.attempts + 1, r.methods_tried⟩) h

/-- `methods_tried.append(...)` (advanced_quiz_solver.py:104, 137). -/
def appendMethod (url m : String) (h : History) : History :=
  histUpdate url (fun r => ⟨r.attempts, r.methods_tried ++ [m]⟩) h

/-- Which collaborators a `solve_quiz` call actually invoked. -/
structure AttemptTrace where
  execTried : Bool
  directTried : Bool
  submitted : Bool
  deriving Repr, DecidableEq

/-- The tail of `solve_quiz` (advanced_quiz_solver.py:173-186): fail when
the answer is `None`, otherwise submit it. -/
def finishAttempt (env : AttemptEnv) (answer : Option JVal) (t : AttemptTrace)
    (h : History) : SubmitResult × AttemptTrace × History :=
  match answer with
  | none => (⟨false, "Failed to solve quiz", none⟩, t, h)
  | some _ => (env.submitResult, { t with submitted := true }, h)

/-- `AdvancedQuizSolver.solve_quiz` (advanced_quiz_solver.py:28-190).
When `force` is set the selector is bypassed and code generation is called
directly; a code-generation or code-execution failure returns a
not-correct result at once. In the automatic path a failing execution
falls back to `solve_with_context` before submitting. -/
def solve_quiz (history : History) (quizUrl : String) (force : Bool)
    (env : AttemptEnv) : SubmitResult × AttemptTrace × History :=
  let h1 := bumpHistory quizUrl history
  if !env.fetchOk then
    (⟨false, "Failed to fetch quiz page", none⟩, ⟨false, false, false⟩, h1)
  else if force then
    let h2 := appendMethod quizUrl "code_execution" h1
    match genCodeOf env.genApi with
    | some code =>
      if code != "" then
        match env.execResult with
        | .success v => finishAttempt env (some v) ⟨true, false, false⟩ h2
        | .failure e =>
          (⟨false, "Code execution failed: " ++ e, none⟩, ⟨true, false, false⟩, h2)
      else (⟨false, "Failed to generate code", none⟩, ⟨false, false, false⟩, h2)
    | none => (⟨false, "Failed to generate code", none⟩, ⟨false, false, false⟩, h2)
  else
    let sc := get_solution_strategy env.quizContent env.strategyApi
    let h2 := appendMethod quizUrl sc.1 h1
    let codeTruthy := match sc.2 with
      | some c => c != ""
      | none => false
    if sc.1 == "code_execution" && codeTruthy then
      match env.execResult with
      | .success v => finishAttempt env (some v) ⟨true, false, false⟩ h2
      | .failure _ => finishAttempt env env.directAnswer ⟨true, true, false⟩ h2
    else finishAttempt env env.directAnswer ⟨false, true, false⟩ h2

/-- Manual-fallback data for one attempt that reaches the escape hatch:
`none` models a skipped or failed `input()` (e.g. EOF in a background
task); when an answer is supplied, the outcome of submitting it. -/
structure ManualStep where
  answer : Option String
  submitResult : SubmitResult

/-- One scripted attempt: the solver environment, the elapsed seconds
since the question started as read after the attempt, and the manual
fallback data should this attempt exhaust the retry budget. -/
structure AttemptStep where
  env : AttemptEnv
  elapsed : Nat
  manual : ManualStep

/-- Orchestrator chain state (`current_url`, `question_number`, and the
solver's attempt history); `currentUrl = ""` is the falsy terminal. -/
structure ChainState where
  currentUrl : String
  questionNumber : Nat
  history : History
  deriving Repr, DecidableEq

/-- How a chain run ended: normal completion (`current_url` became falsy
after a correct answer), a `return`/`break` out of the outer loop, or
exhaustion of the scripted attempts (model artifact, unreachable from
`solve_quiz_chain` which supplies sufficient fuel). -/
inductive Terminal where
  | completed
  | stopped
  | outOfScript
  deriving Repr, DecidableEq

/-- Result of the per-question inner `while` loop (main.py:147-273)
followed by the post-loop block (main.py:266-273): either the outer loop
continues with a new state, or the whole run ends. -/
inductive InnerRes where
  | continueChain (st : ChainState)
  | endRun (st : ChainState) (t : Terminal)

/-- Output of the inner loop: its result, the unconsumed attempt script,
and the `force_code` flag of each attempt in order. -/
structure InnerOut where
  res : InnerRes
  remaining : List AttemptStep
  forceLog : List Bool

/-- Line 149 of main.py: `force_code = (retry_count == 1)  # Force code
execution on second try only` — the expression tests the incremented
counter against 1, i.e. the first attempt. -/
def force_code (retry_count : Nat) : Bool :=
  retry_count == 1

/-- The per-question retry loop of `solve_quiz_chain` (main.py:147-273)
including the post-loop block (main.py:266-273). `retry` is the current
`retry_count`, `last` the remembered `last_next_url`. Each iteration sets
`force_code = (retry_count == 1)` (main.py:149). -/
def innerLoop : List AttemptStep → ChainState → Nat → Option String → InnerOut
  | [], st, _, _ => ⟨.endRun st .outOfScript, [], []⟩
  | step :: rest, st, retry, last =>
    let retryN := retry + 1
    let force := force_code retryN
    let out := solve_quiz st.history st.currentUrl force step.env
    let result := out.1
    let st := { st with history := out.2.2 }
    let lastN := match result.url with
      | some u => some u
      | none => last
    let one := fun (r : InnerRes) => (⟨r, rest, [force]⟩ : InnerOut)
    if result.correct then
      match result.url with
      | some u =>
        one (.continueChain
          { st with currentUrl := u, questionNumber := st.questionNumber + 1 })
      | none => one (.endRun { st with currentUrl := "" } .completed)
    else if 160 ≤ step.elapsed then
      match lastN with
      | some u =>
        if u != st.currentUrl then
          one (.endRun
            { st with currentUrl := u, questionNumber := st.questionNumber + 1 } .stopped)
        else one (.endRun st .stopped)
      | none => one (.endRun st .stopped)
    else if retryN < 2 then
      let next := innerLoop rest st retryN lastN
      ⟨next.res, next.remaining, force :: next.forceLog⟩
    else
      match step.manual.answer with
      | some _ =>
        let mr := step.manual.submitResult
        if mr.correct then
          match mr.url with
          | some u =>
            one (.continueChain
              { st with currentUrl := u, questionNumber := st.questionNumber + 1 })
          | none => one (.endRun { st with currentUrl := "" } .completed)
        else
          match mr.url with
          | some mu =>
            match lastN with
            | some lu =>
              if lu != mu then
                one (.continueChain
                  { st with currentUrl := lu, questionNumber := st.questionNumber + 2 })
              else
                one (.endRun
                  { st with currentUrl := mu, questionNumber := st.questionNumber + 1 }
                  .stopped)
            | none =>
              one (.endRun
                { st with currentUrl := mu, questionNumber := st.questionNumber + 1 }
                .stopped)
          | none =>
            match lastN with
            | some lu =>
              if lu != st.currentUrl then
                one (.endRun
                  { st with currentUrl := lu, questionNumber := st.questionNumber + 1 }
                  .stopped)
              else one (.endRun st .stopped)
            | none => one (.endRun st .stopped)
      | none =>
        match lastN with
        | some lu =>
          if lu != st.currentUrl then
            one (.endRun
              { st with currentUrl := lu, questionNumber := st.questionNumber + 1 }
              .stopped)
          else one (.endRun st .stopped)
        | none => one (.endRun st .stopped)

/-- The chain state carried by an inner-loop result. -/
def InnerRes.state : InnerRes → ChainState
  | .continueChain st => st
  | .endRun st _ => st

/-- Observable outcome of one chain run. `questionsVisited` lists the
`current_url` of every outer-loop iteration actually entered, in order;
`forceLog` the `force_code` flag of every attempt; `cleanedUp` whether the
`finally` block released the solver's resources. -/
structure RunResult where
  finalState : ChainState
  terminal : Terminal
  questionsVisited : List String
  forceLog : List Bool
  cleanedUp : Bool
  deriving Repr, DecidableEq

/-- The outer `while current_url:` loop of `solve_quiz_chain`
(main.py:137-273). The fuel only bounds the number of outer iterations;
`solve_quiz_chain` supplies enough for any script since every entered
question consumes at least one scripted attempt. -/
def chainLoop : Nat → List AttemptStep → ChainState → RunResult
  | 0, _, st => ⟨st, .outOfScript, [], [], false⟩
  | fuel + 1, script, st =>
    if st.currentUrl == "" then ⟨st, .completed, [], [], false⟩
    else
      let io := innerLoop script st 0 none
      match io.res with
      | .continueChain st2 =>
        let r := chainLoop fuel io.remaining st2
        { r with
          questionsVisited := st.currentUrl :: r.questionsVisited,
          forceLog := io.forceLog ++ r.forceLog }
      | .endRun st2 t => ⟨st2, t, [st.currentUrl], io.forceLog, false⟩

/-- `solve_quiz_chain` (main.py:127-283): run the chain from the initial
URL with `question_number = 1` and a fresh solver; the `finally` block
always runs and closes the solver (which calls `CodeExecutor.cleanup`). -/
def solve_quiz_chain (script : List AttemptStep) (initialUrl : String) : RunResult :=
  let r := chainLoop (script.length + 1) script ⟨initialUrl, 1, []⟩
  { r with cleanedUp := true }

/-- A CSV field needs quoting when it holds the separator, a quote or a
line break (the QUOTE_MINIMAL policy of the external pandas writer). -/
def needsQuote (s : String) : Bool :=
  s.toList.any (fun c => c == ',' || c == '"' || c == '\n' || c == '\r')

/-- Double every quote inside a quoted field body. -/
def quoteDouble : List Char → List Char
  | [] => []
  | c :: cs => if c = '"' then '"' :: '"' :: quoteDouble cs else c :: quoteDouble cs

theorem quoteDouble_cons (c : Char) (g : List Char) :
    quoteDouble (c :: g)
      = if c = '"' then '"' :: '"' :: quoteDouble g else c :: quoteDouble g := rfl

/-- Serialize one field (model of the pandas `to_csv` field writer; an
empty field is written as nothing). -/
def encodeField (s : String) : List Char :=
  if needsQuote s then '"' :: (quoteDouble s.toList ++ ['"'])
  else s.toList

/-- Comma-join the encoded fields of one row. -/
def encodeRow : List String → List Char
  | [] => []
  | [f] => encodeField f
  | f :: fs => encodeField f ++ ',' :: encodeRow fs

/-- Serialize all rows, each terminated by a newline (`to_csv` layout). -/
def encodeCsv (rows : List (List String)) : List Char :=
  (rows.map (fun r => encodeRow r ++ ['\n'])).flatten

/-- Scanner mode: outside quotes, inside a quoted section, or just after a
closing quote (where a further quote means an escaped doubled quote). -/
inductive ScanMode where
  | plain
  | quoted
  | closed
  deriving Repr, DecidableEq

/-- Quote-aware CSV scanner (model of the external `read_csv` tokenizer).
`fld` is the reversed pending field, `row` the reversed completed fields
of the current record, `acc` the reversed completed records. A trailing
record without newline is flushed. -/
def csvScan : List Char → ScanMode → List Char → List String →
    List (List String) → List (List String)
  | [], _, fld, row, acc =>
    if fld.isEmpty && row.isEmpty then acc.reverse
    else ((String.mk fld.reverse :: row).reverse :: acc).reverse
  | c :: cs, .quoted, fld, row, acc =>
    if c = '"' then csvScan cs .closed fld row acc
    else csvScan cs .quoted (c :: fld) row acc
  | c :: cs, .closed, fld, row, acc =>
    if c = '"' then csvScan cs .quoted ('"' :: fld) row acc
    else if c = ',' then csvScan cs .plain [] (String.mk fld.reverse :: row) acc
    else if c = '\n' then
      csvScan cs .plain [] [] ((String.mk fld.reverse :: row).reverse :: acc)
    else csvScan cs .closed (c :: fld) row acc
  | c :: cs, .plain, fld, row, acc =>
    if c = '"' then csvScan cs .quoted fld row acc
    else if c = ',' then csvScan cs .plain [] (String.mk fld.reverse :: row) acc
    else if c = '\n' then
      csvScan cs .plain [] [] ((String.mk fld.reverse :: row).reverse :: acc)
    else csvScan cs .plain (c :: fld) row acc

/-- Records of a CSV document; blank lines (which scan to `[""]`) are
skipped, as `read_csv` does with its default `skip_blank_lines`. -/
def csvRows (content : String) : List (List String) :=
  (csvScan content.toList .plain [] [] []).filter (fun r => r != [""])

/-- Model of the external `pandas.read_csv` collaborator at the level of
fields-as-strings: tokenize records, skip blank lines, raise
`EmptyDataError` (`none`) when nothing remains, else split off the header
record. -/
def pd_read_csv (content : String) : Option (List String × List (List String)) :=
  match csvRows content with
  | [] => none
  | header :: dataRows => some (header, dataRows)

/-- Insert a key unless already present (first-occurrence order). -/
def insertKey (acc : List String) (k : String) : List String :=
  if k ∈ acc then acc else acc ++ [k]

/-- Column order of `pd.DataFrame(records)`: union of the record keys in
first-appearance order. -/
def recordColumns (records : List (List (String × String))) : List String :=
  records.foldl (fun acc r => r.foldl (fun a kv => insertKey a kv.1) acc) []

/-- Cell of a record under a column; a missing key is NaN, which the
writer renders as the empty field. -/
def recordCell (r : List (String × String)) (c : String) : String :=
  match r.lookup c with
  | some v => v
  | none => ""

/-- Model of `pd.DataFrame(records)`: columns plus the row grid. An empty
record list yields a frame with no columns — the column metadata of the
originating material is not part of `records` and cannot be recovered. -/
def pd_DataFrame_records (records : List (List (String × String))) :
    List String × List (List String) :=
  let cols := recordColumns records
  (cols, records.map (fun r => cols.map (recordCell r)))

/-- CSV `FileMaterial` as built by `AdvancedQuizSolver.process_csv`
(advanced_quiz_solver.py:565-580): column names, row count (`shape[0]`),
and the full rows as records (`df.to_dict('records')`), with cell values
kept as rendered strings. -/
structure CsvMaterial where
  columns : List String
  rowCount : Nat
  data : List (List (String × String))
  deriving Repr, DecidableEq

/-- `AdvancedQuizSolver.process_csv` (advanced_quiz_solver.py:565-580):
decode bytes with `read_csv`; any decode error yields `None`. -/
def process_csv (content : String) : Option CsvMaterial :=
  match pd_read_csv content with
  | none => none
  | some (header, rows) =>
    some ⟨header, rows.length, rows.map (fun r => header.zip r)⟩

/-- The CSV branch of `CodeExecutor._save_files_to_disk`
(code_executor.py:131-137): `pd.DataFrame(data['data']).to_csv(path,
index=False)` — only the records are materialized, not the stored column
list. -/
def materialize_csv (m : CsvMaterial) : String :=
  let df := pd_DataFrame_records m.data
  String.mk (encodeCsv (df.1 :: df.2))

/-! History bookkeeping lemmas: `attempt_history` entries are created on
first sight of a URL and are never removed by any later operation. -/

theorem histUpdate_cons (url : String) (g : AttemptRecord → AttemptRecord)
    (kv : String × AttemptRecord) (t : History) :
    histUpdate url g (kv :: t)
      = (if kv.1 = url then (kv.1, g kv.2) else kv) :: histUpdate url g t := rfl

theorem histFind_histUpdate_isSome (u url : String)
    (g : AttemptRecord → AttemptRecord) (h : History) :
    (histFind u (histUpdate url g h)).isSome = (histFind u h).isSome := by
  induction h with
  | nil => rfl
  | cons kv t ih =>
    rw [histUpdate_cons]
    by_cases hku : kv.1 = url
    · rw [if_pos hku]
      by_cases hku2 : kv.1 = u
      · simp [histFind, hku2]
      · simp only [histFind, if_neg hku2]
        exact ih
    · rw [if_neg hku]
      by_cases hku2 : kv.1 = u
      · simp [histFind, hku2]
      · simp only [histFind, if_neg hku2]
        exact ih

theorem histFind_append_some (u : String) (h l : History)
    (hs : (histFind u h).isSome = true) : histFind u (h ++ l) = histFind u h := by
  induction h with
  | nil => simp [histFind] at hs
  | cons kv t ih =>
    rw [List.cons_append]
    by_cases hku : kv.1 = u
    · simp [histFind, hku]
    · simp only [histFind, if_neg hku] at hs ⊢
      exact ih hs

theorem histFind_append_new (u : String) (h : History) (v : AttemptRecord)
    (hn : histFind u h = none) : histFind u (h ++ [(u, v)]) = some v := by
  induction h with
  | nil => simp [histFind]
  | cons kv t ih =>
    rw [List.cons_append]
    simp only [histFind] at hn ⊢
    by_cases hku : kv.1 = u
    · rw [if_pos hku] at hn
      exact absurd hn (by simp)
    · rw [if_neg hku] at hn ⊢
      exact ih hn

theorem bumpHistory_mono (u url : String) (h : History)
    (hs : (histFind u h).isSome = true) :
    (histFind u (bumpHistory url h)).isSome = true := by
  unfold bumpHistory
  cases hf : histFind url h with
  | none => rw [histFind_append_some u h _ hs]; exact hs
  | some r => rw [histFind_histUpdate_isSome]; exact hs

theorem bumpHistory_creates (url : String) (h : History) :
    (histFind url (bumpHistory url h)).isSome = true := by
  unfold bumpHistory
  cases hf : histFind url h with
  | none => rw [histFind_append_new url h _ hf]; rfl
  | some r => rw [histFind_histUpdate_isSome, hf]; rfl

theorem finishAttempt_hist (env : AttemptEnv) (a : Option JVal)
    (t : AttemptTrace) (h : History) : (finishAttempt env a t h).2.2 = h := by
  cases a <;> rfl

theorem solve_quiz_hist_shape (h : History) (url : String) (force : Bool)
    (env : AttemptEnv) :
    (solve_quiz h url force env).2.2 = bumpHistory url h ∨
    ∃ m, (solve_quiz h url force env).2.2 = appendMethod url m (bumpHistory url h) := by
  unfold solve_quiz finishAttempt
  repeat' split
  all_goals first
    | exact Or.inl rfl
    | exact Or.inr ⟨"code_execution", rfl⟩
    | exact Or.inr
        ⟨(get_solution_strategy env.quizContent env.strategyApi).1, rfl⟩
    | exact Or.inr
        ⟨(get_solution_strategy env.quizContent env.strategyApi).1,
          by dsimp only; split <;> rfl⟩

theorem solve_quiz_hist_mono (u : String) (h : History) (url : String)
    (force : Bool) (env : AttemptEnv)
    (hs : (histFind u h).isSome = true) :
    (histFind u (solve_quiz h url force env).2.2).isSome = true := by
  rcases solve_quiz_hist_shape h url force env with heq | ⟨m, heq⟩ <;> rw [heq]
  · exact bumpHistory_mono u url h hs
  · unfold appendMethod
    rw [histFind_histUpdate_isSome]
    exact bumpHistory_mono u url h hs

theorem solve_quiz_hist_creates (h : History) (url : String) (force : Bool)
    (env : AttemptEnv) :
    (histFind url (solve_quiz h url force env).2.2).isSome = true := by
  rcases solve_quiz_hist_shape h url force env with heq | ⟨m, heq⟩ <;> rw [heq]
  · exact bumpHistory_creates url h
  · unfold appendMethod
    rw [histFind_histUpdate_isSome]
    exact bumpHistory_creates url h

theorem innerLoop_hist_mono (script : List AttemptStep) :
    ∀ (st : ChainState) (retry : Nat) (last : Option String) (u : String),
      (histFind u st.history).isSome = true →
      (histFind u (innerLoop script st retry last).res.state.history).isSome = true := by
  induction script with
  | nil => intro st retry last u hs; exact hs
  | cons step rest ih =>
    intro st retry last u hs
    have hmono := solve_quiz_hist_mono u st.history st.currentUrl
      (force_code (retry + 1)) step.env hs
    unfold innerLoop
    dsimp only
    repeat' split
    all_goals dsimp only [InnerRes.state]
    all_goals first
      | exact hmono
      | (refine ih _ _ _ u ?_; exact hmono)

theorem chainLoop_hist_mono (fuel : Nat) :
    ∀ (script : List AttemptStep) (st : ChainState) (u : String),
      (histFind u st.history).isSome = true →
      (histFind u (chainLoop fuel script st).finalState.history).isSome = true := by
  induction fuel with
  | zero => intro script st u hs; exact hs
  | succ fuel ih =>
    intro script st u hs
    unfold chainLoop
    have hinner := innerLoop_hist_mono script st 0 none u hs
    split
    · exact hs
    · dsimp only
      cases hio : (innerLoop script st 0 none).res with
      | continueChain st2 =>
        rw [hio] at hinner
        dsimp only [InnerRes.state] at hinner
        exact ih _ st2 u hinner
      | endRun st2 t =>
        rw [hio] at hinner
        dsimp only [InnerRes.state] at hinner
        exact hinner

/-! CSV codec inverse lemmas, leading to the round-trip property. -/

theorem csvScan_nil (m : ScanMode) (fld : List Char) (row : List String)
    (acc : List (List String)) :
    csvScan [] m fld row acc
      = if fld.isEmpty && row.isEmpty then acc.reverse
        else ((String.mk fld.reverse :: row).reverse :: acc).reverse := by
  cases m <;> rfl

theorem csvScan_plain_cons (c : Char) (cs fld : List Char) (row : List String)
    (acc : List (List String)) :
    csvScan (c :: cs) .plain fld row acc
      = if c = '"' then csvScan cs .quoted fld row acc
        else if c = ',' then csvScan cs .plain [] (String.mk fld.reverse :: row) acc
        else if c = '\n' then
          csvScan cs .plain [] [] ((String.mk fld.reverse :: row).reverse :: acc)
        else csvScan cs .plain (c :: fld) row acc := rfl

theorem csvScan_quoted_cons (c : Char) (cs fld : List Char) (row : List String)
    (acc : List (List String)) :
    csvScan (c :: cs) .quoted fld row acc
      = if c = '"' then csvScan cs .closed fld row acc
        else csvScan cs .quoted (c :: fld) row acc := rfl

theorem csvScan_closed_cons (c : Char) (cs fld : List Char) (row : List String)
    (acc : List (List String)) :
    csvScan (c :: cs) .closed fld row acc
      = if c = '"' then csvScan cs .quoted ('"' :: fld) row acc
        else if c = ',' then csvScan cs .plain [] (String.mk fld.reverse :: row) acc
        else if c = '\n' then
          csvScan cs .plain [] [] ((String.mk fld.reverse :: row).reverse :: acc)
        else csvScan cs .closed (c :: fld) row acc := rfl

theorem csvScan_run (g : List Char)
    (hg : ∀ c ∈ g, c ≠ '"' ∧ c ≠ ',' ∧ c ≠ '\n') :
    ∀ (rest fld : List Char) (row : List String) (acc : List (List String)),
      csvScan (g ++ rest) .plain fld row acc
        = csvScan rest .plain (g.reverse ++ fld) row acc := by
  induction g with
  | nil => intro rest fld row acc; simp
  | cons c g ihg =>
    intro rest fld row acc
    obtain ⟨h1, h2, h3⟩ := hg c (List.mem_cons_self c g)
    have hg' : ∀ x ∈ g, x ≠ '"' ∧ x ≠ ',' ∧ x ≠ '\n' :=
      fun x hx => hg x (List.mem_cons_of_mem c hx)
    rw [List.cons_append, csvScan_plain_cons]
    rw [if_neg h1, if_neg h2, if_neg h3]
    rw [ihg hg' rest (c :: fld) row acc]
    simp

theorem csvScan_quotedBody (g : List Char) :
    ∀ (rest fld : List Char) (row : List String) (acc : List (List String)),
      csvScan (quoteDouble g ++ '"' :: rest) .quoted fld row acc
        = csvScan rest .closed (g.reverse ++ fld) row acc := by
  induction g with
  | nil =>
    intro rest fld row acc
    show csvScan ('"' :: rest) .quoted fld row acc = _
    rw [csvScan_quoted_cons, if_pos rfl]
    simp
  | cons c g ihg =>
    intro rest fld row acc
    by_cases hc : c = '"'
    · subst hc
      rw [quoteDouble_cons, if_pos rfl, List.cons_append, List.cons_append]
      rw [csvScan_quoted_cons, if_pos rfl]
      rw [csvScan_closed_cons, if_pos rfl]
      rw [ihg rest ('"' :: fld) row acc]
      simp
    · rw [quoteDouble_cons, if_neg hc, List.cons_append]
      rw [csvScan_quoted_cons, if_neg hc]
      rw [ihg rest (c :: fld) row acc]
      simp

/-- After one serialized field, the scanner sits in `plain` or `closed`
mode; both modes treat the following delimiter identically, captured by
continuing on the delimiter-headed rest. -/
theorem csvScan_field_comma (f : String) (rest : List Char) (row : List String)
    (acc : List (List String)) :
    csvScan (encodeField f ++ ',' :: rest) .plain [] row acc
      = csvScan rest .plain [] (f :: row) acc := by
  unfold encodeField
  by_cases hq : needsQuote f = true
  · rw [if_pos hq]
    show csvScan ('"' :: ((quoteDouble f.toList ++ ['"']) ++ ',' :: rest))
        .plain [] row acc = _
    rw [csvScan_plain_cons, if_pos rfl]
    rw [List.append_assoc, List.singleton_append]
    rw [csvScan_quotedBody f.toList (',' :: rest) [] row acc]
    rw [csvScan_closed_cons, if_neg (by decide), if_pos rfl]
    simp
  · rw [if_neg hq]
    have hplain : ∀ c ∈ f.toList, c ≠ '"' ∧ c ≠ ',' ∧ c ≠ '\n' := by
      intro c hc
      have : ¬ (c = ',' ∨ c = '"' ∨ c = '\n' ∨ c = '\r') := by
        intro hor
        apply hq
        unfold needsQuote
        rw [List.any_eq_true]
        exact ⟨c, hc, by
          rcases hor with h | h | h | h <;> subst h <;> rfl⟩
      constructor
      · intro h; exact this (Or.inr (Or.inl h))
      constructor
      · intro h; exact this (Or.inl h)
      · intro h; exact this (Or.inr (Or.inr (Or.inl h)))
    rw [csvScan_run f.toList hplain (',' :: rest) [] row acc]
    rw [csvScan_plain_cons, if_neg (by decide), if_pos rfl]
    simp

theorem csvScan_field_newline (f : String) (rest : List Char) (row : List String)
    (acc : List (List String)) :
    csvScan (encodeField f ++ '\n' :: rest) .plain [] row acc
      = csvScan rest .plain [] [] ((f :: row).reverse :: acc) := by
  unfold encodeField
  by_cases hq : needsQuote f = true
  · rw [if_pos hq]
    show csvScan ('"' :: ((quoteDouble f.toList ++ ['"']) ++ '\n' :: rest))
        .plain [] row acc = _
    rw [csvScan_plain_cons, if_pos rfl]
    rw [List.append_assoc, List.singleton_append]
    rw [csvScan_quotedBody f.toList ('\n' :: rest) [] row acc]
    rw [csvScan_closed_cons, if_neg (by decide), if_neg (by decide), if_pos rfl]
    simp
  · rw [if_neg hq]
    have hplain : ∀ c ∈ f.toList, c ≠ '"' ∧ c ≠ ',' ∧ c ≠ '\n' := by
      intro c hc
      have : ¬ (c = ',' ∨ c = '"' ∨ c = '\n' ∨ c = '\r') := by
        intro hor
        apply hq
        unfold needsQuote
        rw [List.any_eq_true]
        exact ⟨c, hc, by
          rcases hor with h | h | h | h <;> subst h <;> rfl⟩
      constructor
      · intro h; exact this (Or.inr (Or.inl h))
      constructor
      · intro h; exact this (Or.inl h)
      · intro h; exact this (Or.inr (Or.inr (Or.inl h)))
    rw [csvScan_run f.toList hplain ('\n' :: rest) [] row acc]
    rw [csvScan_plain_cons, if_neg (by decide), if_neg (by decide), if_pos rfl]
    simp

theorem csvScan_record (r : List String) (hr : r ≠ []) :
    ∀ (rest : List Char) (row : List String) (acc : List (List String)),
      csvScan (encodeRow r ++ '\n' :: rest) .plain [] row acc
        = csvScan rest .plain [] [] ((row.reverse ++ r) :: acc) := by
  induction r with
  | nil => exact absurd rfl hr
  | cons f fs ihr =>
    intro rest row acc
    cases fs with
    | nil =>
      show csvScan (encodeField f ++ '\n' :: rest) .plain [] row acc = _
      rw [csvScan_field_newline]
      simp
    | cons g gs =>
      have : encodeRow (f :: g :: gs) = encodeField f ++ ',' :: encodeRow (g :: gs) := rfl
      rw [this, List.append_assoc, List.cons_append]
      rw [csvScan_field_comma f (encodeRow (g :: gs) ++ '\n' :: rest) row acc]
      rw [ihr (by simp) rest (f :: row) acc]
      simp

theorem csvScan_encodeCsv (rows : List (List String)) (h : ∀ r ∈ rows, r ≠ []) :
    ∀ acc, csvScan (encodeCsv rows) .plain [] [] acc = acc.reverse ++ rows := by
  induction rows with
  | nil => intro acc; simp [encodeCsv, csvScan]
  | cons r rows ihr =>
    intro acc
    have : encodeCsv (r :: rows) = (encodeRow r ++ ['\n']) ++ encodeCsv rows := by
      simp [encodeCsv]
    rw [this, List.append_assoc, List.singleton_append]
    rw [csvScan_record r (h r (List.mem_cons_self r rows)) (encodeCsv rows) [] acc]
    rw [ihr (fun x hx => h x (List.mem_cons_of_mem r hx)) ((([] : List String).reverse ++ r) :: acc)]
    simp

/-- A row whose encoding is nonempty is neither `[]` nor `[""]` (those two
are exactly the rows that serialize to a blank line). -/
theorem row_of_encodeRow_ne_nil (r : List String) (h : encodeRow r ≠ []) :
    r ≠ [] ∧ r ≠ [""] := by
  constructor
  · intro heq; subst heq; exact h rfl
  · intro heq; subst heq; exact h rfl

theorem csvRows_encode (rows : List (List String))
    (h : ∀ r ∈ rows, encodeRow r ≠ []) :
    csvRows (String.mk (encodeCsv rows)) = rows := by
  unfold csvRows
  have hne : ∀ r ∈ rows, r ≠ [] := fun r hr => (row_of_encodeRow_ne_nil r (h r hr)).1
  have : (String.mk (encodeCsv rows)).toList = encodeCsv rows := rfl
  rw [this, csvScan_encodeCsv rows hne []]
  rw [List.reverse_nil, List.nil_append]
  rw [List.filter_eq_self]
  intro r hr
  have := (row_of_encodeRow_ne_nil r (h r hr)).2
  simpa using this

theorem foldl_insertKey_fresh (ks : List String) :
    ∀ acc, ks.Nodup → (∀ k ∈ ks, k ∉ acc) → ks.foldl insertKey acc = acc ++ ks := by
  induction ks with
  | nil => intro acc _ _; simp
  | cons k ks ih =>
    intro acc hnd hnotin
    rw [List.foldl_cons]
    have hk : k ∉ acc := hnotin k (List.mem_cons_self k ks)
    have hins : insertKey acc k = acc ++ [k] := by
      unfold insertKey
      rw [if_neg hk]
    rw [hins]
    rw [ih (acc ++ [k]) (List.Nodup.of_cons hnd) ?_]
    · simp
    · intro x hx
      rw [List.mem_append]
      rintro (hxa | hxk)
      · exact hnotin x (List.mem_cons_of_mem k hx) hxa
      · rw [List.mem_singleton] at hxk
        subst hxk
        exact (List.nodup_cons.mp hnd).1 hx

theorem foldl_insertKey_present (ks : List String) :
    ∀ acc, (∀ k ∈ ks, k ∈ acc) → ks.foldl insertKey acc = acc := by
  induction ks with
  | nil => intro acc _; rfl
  | cons k ks ih =>
    intro acc hin
    rw [List.foldl_cons]
    have hins : insertKey acc k = acc := by
      unfold insertKey
      rw [if_pos (hin k (List.mem_cons_self k ks))]
    rw [hins]
    exact ih acc (fun x hx => hin x (List.mem_cons_of_mem k hx))

theorem foldl_record_insert (r0 : List (String × String)) (acc : List String) :
    r0.foldl (fun a kv => insertKey a kv.1) acc
      = (r0.map Prod.fst).foldl insertKey acc := by
  rw [List.foldl_map]

theorem foldl_records_keep (cols : List String)
    (records : List (List (String × String)))
    (hkeys : ∀ r ∈ records, r.map Prod.fst = cols) :
    records.foldl (fun acc r => r.foldl (fun a kv => insertKey a kv.1) acc) cols
      = cols := by
  induction records with
  | nil => rfl
  | cons r2 rest2 ih2 =>
    rw [List.foldl_cons, foldl_record_insert r2 cols,
      hkeys r2 (List.mem_cons_self r2 rest2)]
    rw [foldl_insertKey_present cols cols (fun k hk => hk)]
    exact ih2 (fun x hx => hkeys x (List.mem_cons_of_mem r2 hx))

theorem recordColumns_uniform (records : List (List (String × String)))
    (cols : List String) (hnd : cols.Nodup)
    (hkeys : ∀ r ∈ records, r.map Prod.fst = cols) (hne : records ≠ []) :
    recordColumns records = cols := by
  unfold recordColumns
  cases records with
  | nil => exact absurd rfl hne
  | cons r rest =>
    rw [List.foldl_cons]
    rw [foldl_record_insert r [], hkeys r (List.mem_cons_self r rest)]
    rw [foldl_insertKey_fresh cols [] hnd (by simp)]
    rw [List.nil_append]
    exact foldl_records_keep cols rest
      (fun x hx => hkeys x (List.mem_cons_of_mem r hx))

/-- Claim C8 counterexample: a CSV FileMaterial with a header but zero
rows. Materialization writes only the records (`pd.DataFrame(data)`),
which for an empty record list carry no column information: the file is a
single blank line and re-decoding fails entirely (`EmptyDataError`), so
the column set is not preserved. -/
theorem csv_roundtrip_empty_fails :
    (⟨["a"], 0, []⟩ : CsvMaterial).columns = ["a"] ∧
    process_csv (materialize_csv ⟨["a"], 0, []⟩) = none :=
  ⟨rfl, rfl⟩

/-- Claim C8 amended: for every CSV FileMaterial with at least one data
row, whose records are keyed exactly by its (distinct) column list, and
none of whose serialized lines (header or data row) is blank — blank
lines are skipped by the reader — materializing to disk and re-decoding
yields a material with the same column set and the same row count. -/
theorem csv_roundtrip (m : CsvMaterial)
    (hcount : m.rowCount = m.data.length)
    (hne : m.data ≠ [])
    (hnodup : m.columns.Nodup)
    (hkeys : ∀ r ∈ m.data, r.map Prod.fst = m.columns)
    (hheader : encodeRow m.columns ≠ [])
    (hrows : ∀ r ∈ m.data, encodeRow (m.columns.map (recordCell r)) ≠ []) :
    ∃ m2, process_csv (materialize_csv m) = some m2 ∧
      m2.columns = m.columns ∧ m2.rowCount = m.rowCount := by
  have hcols : recordColumns m.data = m.columns :=
    recordColumns_uniform m.data m.columns hnodup hkeys hne
  have hmat : materialize_csv m
      = String.mk (encodeCsv
          (m.columns :: m.data.map (fun r => m.columns.map (recordCell r)))) := by
    unfold materialize_csv pd_DataFrame_records
    rw [hcols]
  have hall : ∀ r ∈ m.columns :: m.data.map (fun r => m.columns.map (recordCell r)),
      encodeRow r ≠ [] := by
    intro r hr
    rcases List.mem_cons.mp hr with heq | hmem
    · subst heq; exact hheader
    · rcases List.mem_map.mp hmem with ⟨r0, hr0, heq⟩
      subst heq
      exact hrows r0 hr0
  have hscan := csvRows_encode _ hall
  refine ⟨⟨m.columns,
    (m.data.map (fun r => m.columns.map (recordCell r))).length,
    (m.data.map (fun r => m.columns.map (recordCell r))).map
      (fun r => m.columns.zip r)⟩, ?_, rfl, ?_⟩
  · rw [hmat]
    unfold process_csv pd_read_csv
    rw [hscan]
  · rw [List.length_map, hcount]

/-- Claim C8 amended, witness: a one-row two-column material round-trips
with its column set and row count intact. -/
theorem csv_roundtrip_witness :
    ∃ m2, process_csv (materialize_csv ⟨["a", "b"], 1, [[("a", "1"), ("b", "2")]]⟩)
        = some m2 ∧
      m2.columns = ["a", "b"] ∧ m2.rowCount = 1 :=
  csv_roundtrip ⟨["a", "b"], 1, [[("a", "1"), ("b", "2")]]⟩
    rfl (by decide) (by decide) (by decide) (by decide) (by decide)

/-! Concrete chain scenarios used by the claim theorems below. -/

/-- Manual fallback that is skipped (EOF / empty input). -/
def noManual : ManualStep := ⟨none, ⟨false, "", none⟩⟩

/-- An attempt environment where everything up to submission works (the
model backend emits a fenced script, execution succeeds) but the scoring
endpoint marks the answer incorrect with no next URL; the automatic
selector's backend call fails, so the automatic path answers directly. -/
def envWrongNoUrl : AttemptEnv :=
  { fetchOk := true, quizContent := "q", strategyApi := .failure,
    genApi := .success "```python\nanswer = 1\n```",
    execResult := .success (.jint 5), directAnswer := some (.jint 3),
    submitResult := ⟨false, "wrong answer", none⟩ }

/-- Same attempts, but the submission response is
`{correct: false, url: "Q2"}`. -/
def envWrongWithQ2 : AttemptEnv :=
  { envWrongNoUrl with submitResult := ⟨false, "wrong answer", some "Q2"⟩ }

/-- Same attempts, but the submission response is
`{correct: true, url: "Q2"}`. -/
def envCorrectWithQ2 : AttemptEnv :=
  { envWrongNoUrl with submitResult := ⟨true, "", some "Q2"⟩ }

/-- Two failing attempts at one question, both well inside the 160s
question budget, manual input skipped. -/
def c1Script : List AttemptStep :=
  [⟨envWrongNoUrl, 10, noManual⟩, ⟨envWrongNoUrl, 20, noManual⟩]

/-- One failing attempt whose submission response supplies next URL "Q2"
and whose elapsed time (200s) exceeds the 160s question timeout. -/
def c2Script : List AttemptStep :=
  [⟨envWrongWithQ2, 200, noManual⟩]

/-- Question 1 solved (next URL "Q2"), then question 2 fails with a
timeout and no known next URL, ending the run. -/
def c9Script : List AttemptStep :=
  [⟨envCorrectWithQ2, 10, noManual⟩, ⟨envWrongNoUrl, 200, noManual⟩]

/-- Claim C1: the claim says attempt 1 uses automatic strategy selection
and attempts ≥ 2 force the CodeExecution path. The code computes
`force_code = (retry_count == 1)`, which is true exactly on the first
attempt: in a two-attempt run the forced-code attempt comes first and the
automatic attempt second (`methods_tried = ["code_execution", "direct"]`),
the opposite of the claim and of the source's own comment "Force code
execution on second try only". -/
theorem first_attempt_is_forced :
    force_code 1 = true ∧ force_code 2 = false ∧
    (solve_quiz_chain c1Script "Q1").forceLog = [true, false] ∧
    histFind "Q1" (solve_quiz_chain c1Script "Q1").finalState.history
      = some ⟨2, ["code_execution", "direct"]⟩ :=
  ⟨rfl, rfl, rfl, rfl⟩

/-- Claim C2: on a failed attempt past the question timeout with a
remembered next URL "Q2" ≠ "Q1", the code logs a skip and sets
`current_url`/`question_number` — but the inner loop breaks with
`question_solved` still false, so the post-loop `elif not question_solved:
break` (main.py:271-273) exits the outer loop: the run ends (`stopped`)
having visited only "Q1"; "Q2" is never fetched, contradicting the
claimed permissive-skip advancement. -/
theorem permissive_skip_terminates_run :
    (solve_quiz_chain c2Script "Q1").terminal = Terminal.stopped ∧
    (solve_quiz_chain c2Script "Q1").questionsVisited = ["Q1"] ∧
    (solve_quiz_chain c2Script "Q1").finalState.currentUrl = "Q2" ∧
    (solve_quiz_chain c2Script "Q1").finalState.questionNumber = 2 :=
  ⟨rfl, rfl, rfl, rfl⟩

/-- Claim C3 counterexample: on `{"a":1} {"b":2}` the source's greedy
regex span runs from the first `{` to the last `}`, fails to parse as
JSON, and the extractor falls through to the first numeric token `1`;
the claimed first *balanced* substring `{"a":1}` does parse, so the claim
predicts the object instead. -/
theorem extract_answer_not_balanced :
    extract_answer "\x7b\"a\":1\x7d \x7b\"b\":2\x7d" = .jint 1 ∧
    specFirstBalancedJson ("\x7b\"a\":1\x7d \x7b\"b\":2\x7d".toList)
      = some (.jobj [("a", .jint 1)]) ∧
    JVal.jint 1 ≠ JVal.jobj [("a", .jint 1)] :=
  ⟨rfl, rfl, fun h => JVal.noConfusion h⟩

/-- Claim C3 amended: extraction tries, in priority order, (1) the greedy
regex span from the first viable opening brace/bracket to the last
closing one, parsed as JSON (a parse failure of that single span skips
the JSON step entirely); (2) the first numeric token, float iff it has a
decimal point; (3) boolean words on the trimmed lowercased text; (4) the
trimmed text. All the spec's concrete evaluations hold. -/
theorem extract_answer_behaviour :
    extract_answer "42" = .jint 42 ∧
    extract_answer "45.67" = .jfloat (mkRat 4567 100) ∧
    extract_answer "true" = .jbool true ∧
    extract_answer "\x7b\"a\":1\x7d" = .jobj [("a", .jint 1)] ∧
    extract_answer "Result: 42 items" = .jint 42 ∧
    extract_answer " YES " = .jbool true ∧
    extract_answer "no" = .jbool false ∧
    extract_answer "  hello world  " = .jstr "hello world" ∧
    (∀ s sp v, jsonSpan s.toList = some sp → json_loads (String.mk sp) = some v →
      extract_answer s = v) ∧
    (∀ s sp, jsonSpan s.toList = some sp → json_loads (String.mk sp) = none →
      extract_answer s = extractAfterJson s) ∧
    (∀ s, jsonSpan s.toList = none → extract_answer s = extractAfterJson s) := by
  refine ⟨rfl, rfl, rfl, rfl, rfl, rfl, rfl, rfl, ?_, ?_, ?_⟩
  · intro s sp v hspan hload
    unfold extract_answer
    rw [hspan]
    simp only [hload]
  · intro s sp hspan hload
    unfold extract_answer
    rw [hspan]
    simp only [hload]
  · intro s hspan
    unfold extract_answer
    rw [hspan]

/-- Claim C3 amended, witness: the generic JSON-span clause applied at a
concrete input. -/
theorem extract_answer_behaviour_witness :
    extract_answer "x \x7b\"k\":true\x7d y" = .jobj [("k", .jbool true)] :=
  (extract_answer_behaviour.2.2.2.2.2.2.2.2.1)
    "x \x7b\"k\":true\x7d y" ("\x7b\"k\":true\x7d".toList)
    (.jobj [("k", .jbool true)]) rfl rfl

/-- The scratch directory as materialized for a CSV input whose source URL
has no dotted trailing segment: `_extract_filename` names it `data.csv`,
created at materialization time (ctime 0), before any user code runs. -/
def inputOnlyScratch : List DirFile :=
  [⟨extract_filename "http://host/data" "csv", 0⟩]

/-- Claim C4 counterexample: with neither `answer` nor `result` bound and
no file created by the user code, the wrapper's scan — which has no
newly-created filter — selects the materialized input file itself as the
implicit output artifact. -/
theorem wrap_capture_selects_input_file :
    extract_filename "http://host/data" "csv" = "data.csv" ∧
    wrap_capture none none inputOnlyScratch = (none, some "data.csv") :=
  ⟨rfl, rfl⟩

/-- Claim C4 amended: when neither variable is bound the wrapper scans the
scratch directory for *all* files with an allowlisted extension
(`png,jpg,jpeg,svg,csv,json,xlsx`), materialized inputs included, and
selects the one with the greatest ctime (first listed on ties); with no
allowlisted file present, no artifact is selected. -/
theorem wrap_capture_unbound_scan (files : List DirFile) :
    wrap_capture none none files
      = (none,
          match outputFilesScan files with
          | [] => none
          | f :: fs => some (maxByCtime f fs).name) := by
  unfold wrap_capture
  cases outputFilesScan files <;> rfl

/-- Claim C5: a child process outliving the 60s default timeout is killed
and `_run_script` reports `succeeded=false` with error message
"Code execution timeout"; `cleanup` swallows any rmtree failure instead
of raising, and every chain run reaches the `finally` cleanup. -/
theorem run_script_timeout (p : ProcRun) (pf : String → Option JVal)
    (h : executorTimeout < p.runtime) :
    run_script executorTimeout p pf
      = ⟨false, none, "Code execution timeout", true⟩ ∧
    (∀ o : Except String Unit, (cleanup o).isOk = true) ∧
    (∀ script u, (solve_quiz_chain script u).cleanedUp = true) := by
  refine ⟨?_, ?_, ?_⟩
  · unfold run_script
    rw [if_pos h]
  · intro o; cases o <;> rfl
  · intro script u; rfl

/-- Claim C5 witness: a 61-second child under the 60s default. -/
theorem run_script_timeout_witness :
    run_script executorTimeout ⟨61, 0, "", ""⟩ (fun _ => none)
      = ⟨false, none, "Code execution timeout", true⟩ :=
  (run_script_timeout ⟨61, 0, "", ""⟩ (fun _ => none) (by decide)).1

/-- Claim C6: the inbound `POST /` gate in source order — malformed JSON
is rejected 400, missing/non-string fields 400, a secret or email
mismatch 403, and only a fully validated pair yields the accepted body
(status "accepted" with the url) together with the background chain task
(`httpError` outcomes carry no background url, so no fetch or chain work
ever starts for a rejected request). -/
theorem handle_quiz_gate (cs ce : String) :
    (handle_quiz cs ce none = .httpError 400 "Invalid JSON payload") ∧
    (∀ kvs, (getStrField kvs "email" = none ∨ getStrField kvs "secret" = none ∨
        getStrField kvs "url" = none) →
      handle_quiz cs ce (some (.jobj kvs)) = .httpError 400 "Invalid request format") ∧
    (∀ kvs e s u, getStrField kvs "email" = some e →
      getStrField kvs "secret" = some s → getStrField kvs "url" = some u →
      s ≠ cs →
      handle_quiz cs ce (some (.jobj kvs)) = .httpError 403 "Invalid secret") ∧
    (∀ kvs e u, getStrField kvs "email" = some e →
      getStrField kvs "secret" = some cs → getStrField kvs "url" = some u →
      e ≠ ce →
      handle_quiz cs ce (some (.jobj kvs)) = .httpError 403 "Email does not match") ∧
    (∀ kvs u, getStrField kvs "email" = some ce →
      getStrField kvs "secret" = some cs → getStrField kvs "url" = some u →
      handle_quiz cs ce (some (.jobj kvs)) = .accepted "accepted" u u) := by
  refine ⟨rfl, ?_, ?_, ?_, ?_⟩
  · intro kvs hmiss
    show handleFields cs ce kvs = _
    unfold handleFields
    rcases hmiss with hm | hm | hm <;> rw [hm] <;>
      cases getStrField kvs "email" <;> cases getStrField kvs "secret" <;>
      cases getStrField kvs "url" <;> rfl
  · intro kvs e s u he hs hu hne
    show handleFields cs ce kvs = _
    unfold handleFields
    rw [he, hs, hu]
    simp [hne]
  · intro kvs e u he hs hu hne
    show handleFields cs ce kvs = _
    unfold handleFields
    rw [he, hs, hu]
    simp [hne]
  · intro kvs u he hs hu
    show handleFields cs ce kvs = _
    unfold handleFields
    rw [he, hs, hu]
    simp

/-- Claim C6 witness: the spec's literal scenario — a secret mismatch on a
payload for `http://host/quiz/q1` is rejected 403 with no chain task. -/
theorem handle_quiz_gate_witness :
    handle_quiz "s3cret" "a@b.c"
      (some (.jobj [("email", .jstr "a@b.c"), ("secret", .jstr "wrong"),
        ("url", .jstr "http://host/quiz/q1")]))
      = .httpError 403 "Invalid secret" :=
  (handle_quiz_gate "s3cret" "a@b.c").2.2.1
    [("email", .jstr "a@b.c"), ("secret", .jstr "wrong"),
      ("url", .jstr "http://host/quiz/q1")]
    "a@b.c" "wrong" "http://host/quiz/q1" rfl rfl rfl (by decide)

/-- Claim C7: the selector returns the code-execution strategy only when
code execution is indicated and a non-empty fenced block was extracted; a
failed backend call, and a code-execution vote without (non-empty)
extractable code, all degrade to Direct — the selector never invents
code. -/
theorem strategy_never_invents_code (q : String) (api : ApiOutcome) :
    (get_solution_strategy q .failure = ("direct", none)) ∧
    ((get_solution_strategy q api).1 = "code_execution" →
      ∃ content code, api = .success content ∧
        needs_code_execution content q = true ∧
        extract_code content = some code ∧ code ≠ "" ∧
        (get_solution_strategy q api).2 = some code) ∧
    (∀ content, (extract_code content = none ∨ extract_code content = some "") →
      get_solution_strategy q (.success content) = ("direct", none)) := by
  refine ⟨rfl, ?_, ?_⟩
  · intro hcode
    cases api with
    | failure => simp [get_solution_strategy] at hcode
    | success content =>
      refine ⟨content, ?_⟩
      replace hcode : (strategyOfContent q content).1 = "code_execution" := hcode
      revert hcode
      unfold strategyOfContent
      cases hneed : needs_code_execution content q with
      | false => intro hcode; simp at hcode
      | true =>
        cases hext : extract_code content with
        | none => intro hcode; simp at hcode
        | some code =>
          cases hne : code != "" with
          | false => intro hcode; simp [hne] at hcode
          | true =>
            intro _
            refine ⟨code, rfl, rfl, rfl, by simpa using hne, ?_⟩
            show (strategyOfContent q content).2 = some code
            unfold strategyOfContent
            rw [hneed, hext]
            simp [hne]
  · intro content hext
    show strategyOfContent q content = _
    unfold strategyOfContent
    rcases hext with hm | hm <;> rw [hm] <;>
      cases needs_code_execution content q <;> rfl

/-- Claim C7 witness: an explicit code-execution vote with a fenced block
yields that code; a fence-less response on an arithmetic question yields
Direct. -/
theorem strategy_never_invents_code_witness :
    (∃ content code,
      (ApiOutcome.success "STRATEGY: CODE_EXECUTION\n```python\nimport x\n```")
        = .success content ∧
      needs_code_execution content "plot the data" = true ∧
      extract_code content = some code ∧ code ≠ "" ∧
      (get_solution_strategy "plot the data"
        (.success "STRATEGY: CODE_EXECUTION\n```python\nimport x\n```")).2
        = some code) ∧
    get_solution_strategy "What is 2+2?" (.success "four") = ("direct", none) :=
  ⟨(strategy_never_invents_code "plot the data"
      (.success "STRATEGY: CODE_EXECUTION\n```python\nimport x\n```")).2.1 rfl,
    (strategy_never_invents_code "What is 2+2?"
      (.success "four")).2.2 "four" (Or.inl rfl)⟩

/-- Claim C9 counterexample: the chain solves question "Q1", moves on to
"Q2" and ends there, yet at the end of the run the attempt record for
"Q1" — a question the chain has moved past — is still present in the
history map. No code path ever deletes an entry. -/
theorem attempt_record_outlives_question :
    (solve_quiz_chain c9Script "Q1").questionsVisited = ["Q1", "Q2"] ∧
    histFind "Q1" (solve_quiz_chain c9Script "Q1").finalState.history
      = some ⟨1, ["code_execution"]⟩ :=
  ⟨rfl, rfl⟩

/-- Claim C9 amended: an attempt record is created for a question URL on
its first attempt and is never discarded while the chain run lives — the
history map only grows, so records for questions already moved past
coexist with the current one; the map disappears only with the solver
instance when the run ends. -/
theorem attempt_history_never_discarded (fuel : Nat) (script : List AttemptStep)
    (st : ChainState) (u : String)
    (hs : (histFind u st.history).isSome = true) :
    ((histFind u (chainLoop fuel script st).finalState.history).isSome = true) ∧
    (∀ (h : History) (url : String) (force : Bool) (env : AttemptEnv),
      (histFind url (solve_quiz h url force env).2.2).isSome = true) :=
  ⟨chainLoop_hist_mono fuel script st u hs,
    fun h url force env => solve_quiz_hist_creates h url force env⟩

/-- Claim C9 amended, witness: a pre-existing record for "Q0" survives a
two-question run it takes no part in. -/
theorem attempt_history_never_discarded_witness :
    (histFind "Q0"
      (chainLoop 3 c9Script ⟨"Q1", 1, [("Q0", ⟨1, []⟩)]⟩).finalState.history).isSome
      = true :=
  (attempt_history_never_discarded 3 c9Script ⟨"Q1", 1, [("Q0", ⟨1, []⟩)]⟩
    "Q0" rfl).1

/-- Claim C10: with `force_code_execution` set, a code-generation failure
(or empty block) and a code-execution failure each end the attempt at
once with a not-correct result — no direct answer is attempted and
nothing is submitted; in the automatic path, a failing execution of the
selected code falls back to direct answering within the same attempt,
and submits whenever the direct answer is not `None`. -/
theorem solve_quiz_fallback_asymmetry (h : History) (url : String)
    (env : AttemptEnv) (hf : env.fetchOk = true) :
    ((genCodeOf env.genApi = none ∨ genCodeOf env.genApi = some "") →
      (solve_quiz h url true env).1 = ⟨false, "Failed to generate code", none⟩ ∧
      (solve_quiz h url true env).2.1 = ⟨false, false, false⟩) ∧
    (∀ c e, genCodeOf env.genApi = some c → c ≠ "" → env.execResult = .failure e →
      (solve_quiz h url true env).1 = ⟨false, "Code execution failed: " ++ e, none⟩ ∧
      (solve_quiz h url true env).2.1 = ⟨true, false, false⟩) ∧
    (∀ c e, get_solution_strategy env.quizContent env.strategyApi
        = ("code_execution", some c) → c ≠ "" → env.execResult = .failure e →
      (solve_quiz h url false env).2.1.directTried = true ∧
      (∀ a, env.directAnswer = some a →
        (solve_quiz h url false env).2.1.submitted = true ∧
        (solve_quiz h url false env).1 = env.submitResult)) := by
  refine ⟨?_, ?_, ?_⟩
  · intro hgen
    unfold solve_quiz
    rw [hf]
    rcases hgen with hm | hm <;> rw [hm] <;> simp
  · intro c e hgen hne hexec
    unfold solve_quiz
    rw [hf, hgen, hexec]
    simp [hne]
  · intro c e hsel hne hexec
    unfold solve_quiz
    rw [hf, hsel, hexec]
    simp only [hne]
    constructor
    · simp [hne, finishAttempt]
      cases env.directAnswer <;> rfl
    · intro a ha
      rw [ha]
      simp [hne, finishAttempt]

/-- Claim C10 witness: the three branches at concrete environments. -/
theorem solve_quiz_fallback_asymmetry_witness :
    ((solve_quiz [] "Q1" true { envWrongNoUrl with genApi := .failure }).1
        = ⟨false, "Failed to generate code", none⟩ ∧
      (solve_quiz [] "Q1" true { envWrongNoUrl with genApi := .failure }).2.1
        = ⟨false, false, false⟩) ∧
    ((solve_quiz [] "Q1" true
        { envWrongNoUrl with execResult := .failure "boom" }).1
        = ⟨false, "Code execution failed: boom", none⟩ ∧
      (solve_quiz [] "Q1" true
        { envWrongNoUrl with execResult := .failure "boom" }).2.1
        = ⟨true, false, false⟩) ∧
    ((solve_quiz [] "Q1" false
        { envWrongNoUrl with
            strategyApi := .success "STRATEGY: CODE_EXECUTION\n```python\nimport x\n```",
            execResult := .failure "boom" }).2.1.directTried = true ∧
      (solve_quiz [] "Q1" false
        { envWrongNoUrl with
            strategyApi := .success "STRATEGY: CODE_EXECUTION\n```python\nimport x\n```",
            execResult := .failure "boom" }).2.1.submitted = true ∧
      (solve_quiz [] "Q1" false
        { envWrongNoUrl with
            strategyApi := .success "STRATEGY: CODE_EXECUTION\n```python\nimport x\n```",
            execResult := .failure "boom" }).1
        = ⟨false, "wrong answer", none⟩) := by
  refine ⟨?_, ?_, ?_⟩
  · exact (solve_quiz_fallback_asymmetry [] "Q1"
      { envWrongNoUrl with genApi := .failure } rfl).1 (Or.inl rfl)
  · exact (solve_quiz_fallback_asymmetry [] "Q1"
      { envWrongNoUrl with execResult := .failure "boom" } rfl).2.1
      "answer = 1" "boom" rfl (by decide) rfl
  · have h3 := (solve_quiz_fallback_asymmetry [] "Q1"
      { envWrongNoUrl with
          strategyApi := .success "STRATEGY: CODE_EXECUTION\n```python\nimport x\n```",
          execResult := .failure "boom" } rfl).2.2
      "import x" "boom" rfl (by decide) rfl
    exact ⟨h3.1, (h3.2 (.jint 3) rfl).1, (h3.2 (.jint 3) rfl).2⟩

end Quiz
